import Mathlib

/-!
Shallow embedding of the data-access layer (`db.py`) of the rudn_test123_bot
repository: a SQLite-backed store with tables `notes`, `users`, `models`,
`characters`, `user_character`, `service_call_log` and `error_log`, and the
operations the specification describes.  Tables are modelled as lists of rows;
each operation is a pure function on an explicit store state, returning its
result (and the new state where the source mutates the database).
-/

namespace RudnBot

/-- Row of the `notes` table: `id INTEGER PRIMARY KEY AUTOINCREMENT`,
`user_id`, `text` (with `CHECK(length(text) BETWEEN 1 AND 500)` and
`UNIQUE(user_id, text) ON CONFLICT IGNORE`). `created_at` is irrelevant to
the verified operations and omitted. -/
structure Note where
  id : Nat
  user_id : Int
  text : String
deriving DecidableEq

/-- Row of the `users` table: `user_id INTEGER PRIMARY KEY`, nullable `sign`,
`notify_hour`, `subscribed` (stored 0/1), nullable `last_sent_date`. -/
structure UserRow where
  user_id : Int
  sign : Option String
  notify_hour : Int
  subscribed : Bool
  last_sent_date : Option String
deriving DecidableEq

/-- Row of the `models` registry: `id INTEGER PRIMARY KEY`, unique `key`,
`label`, `active` (0/1, with a partial unique index on `active=1`). -/
structure Model where
  id : Int
  key : String
  label : String
  active : Bool
deriving DecidableEq

/-- Row of the `characters` catalog: `id INTEGER PRIMARY KEY`, unique `name`,
`prompt`. -/
structure Character where
  id : Int
  name : String
  prompt : String
deriving DecidableEq

/-- Row of the `user_character` assignment table:
`telegram_user_id INTEGER PRIMARY KEY`, `character_id` referencing
`characters(id)`. -/
structure UserCharacter where
  telegram_user_id : Int
  character_id : Int
deriving DecidableEq

/-- Row of the append-only `service_call_log` table. -/
structure ServiceCallEntry where
  created_at : String
  service : String
  request : String
  response : Option String
  status_code : Option Int
  duration_ms : Option Int
  error : Option String
deriving DecidableEq

/-- Row of the append-only `error_log` table. -/
structure ErrorEntry where
  created_at : String
  level : String
  logger : String
  message : String
  user_id : Option Int
  command : Option String
  details : Option String
deriving DecidableEq

/-- The whole SQLite database state.  `next_note_id` models the
`AUTOINCREMENT` counter of the `notes` table. -/
structure Db where
  notes : List Note
  next_note_id : Nat
  users : List UserRow
  models : List Model
  characters : List Character
  user_character : List UserCharacter
  service_call_log : List ServiceCallEntry
  error_log : List ErrorEntry
deriving DecidableEq

/-- Typed failures surfaced by the operations: `RuntimeError` on an empty
models registry / characters catalog, `ValueError` on an unknown model id /
character id. -/
inductive DbError where
  | EmptyRegistry
  | UnknownId
  | EmptyCatalog
  | UnknownCharacterId
deriving DecidableEq

/-- Embeds `SELECT ... ORDER BY id LIMIT 1`: the row whose `key` value is minimal
(rows of a SQL table are unordered; the query returns the least id). -/
def minIdBy {A : Type} (key : A → Int) : List A → Option A
  | [] => none
  | x :: xs =>
    match minIdBy key xs with
    | none => some x
    | some y => if key y < key x then some y else some x

/-- Insertion step for `ORDER BY id DESC` on notes. -/
def insertNoteDesc (n : Note) : List Note → List Note
  | [] => [n]
  | m :: ms => if m.id ≤ n.id then n :: m :: ms else m :: insertNoteDesc n ms

/-- Sorting `ORDER BY id DESC` on notes, as an insertion sort. -/
def sortNotesDesc (l : List Note) : List Note := l.foldr insertNoteDesc []

/-- Insertion step for `ORDER BY id` on models. -/
def insertModelAsc (m : Model) : List Model → List Model
  | [] => [m]
  | x :: xs => if m.id ≤ x.id then m :: x :: xs else x :: insertModelAsc m xs

/-- Sorting `ORDER BY id` on models, as an insertion sort. -/
def sortModelsAsc (l : List Model) : List Model := l.foldr insertModelAsc []

/-- Case-insensitive substring test on character lists
(`LIKE '%'||needle||'%' COLLATE NOCASE`). -/
def containsSubAux (pat : List Char) : List Char → Bool
  | [] => pat.isEmpty
  | c :: t => pat.isPrefixOf (c :: t) || containsSubAux pat t

/-- Embeds `text LIKE '%' || needle || '%' COLLATE NOCASE`. -/
def likeNoCase (hay pat : String) : Bool :=
  containsSubAux (pat.data.map Char.toLower) (hay.data.map Char.toLower)

/-- Python `str.strip()`: remove leading and trailing whitespace.  Defined
structurally on the character list so that it evaluates in the kernel. -/
def pyStrip (s : String) : String :=
  String.mk (((s.data.dropWhile Char.isWhitespace).reverse.dropWhile
    Char.isWhitespace).reverse)

/--
Embeds `add_note(user_id, text)`: trims the text, returns `none` on empty text;
otherwise `INSERT INTO notes(user_id, text)`.  A `UNIQUE(user_id, text)`
conflict is ignored by the schema (`ON CONFLICT IGNORE`) and yields no new
row id; a `CHECK(length(text) BETWEEN 1 AND 500)` violation raises
`IntegrityError`, which the source catches and converts to `None`.
Returns the fresh row id on success.
-/
def add_note (s : Db) (user_id : Int) (text : String) : Option Nat × Db :=
  let text := pyStrip text
  if text = "" then (none, s)
  else if s.notes.any (fun n => n.user_id == user_id && n.text == text) then
    (none, s)
  else if text.length < 1 ∨ 500 < text.length then
    (none, s)
  else
    (some s.next_note_id,
     { s with
        notes := s.notes ++ [{ id := s.next_note_id, user_id := user_id, text := text }],
        next_note_id := s.next_note_id + 1 })

/--
Embeds `list_notes(user_id, limit=10)`: `limit = max(1, min(int(limit or 10), 50))`
(Python `or`: a zero limit falls back to the default 10), then
`SELECT id, text, created_at FROM notes WHERE user_id = ? ORDER BY id DESC
LIMIT ?`.
-/
def list_notes (s : Db) (user_id : Int) (limit : Int) : List Note :=
  let limit := if limit == 0 then (10 : Int) else limit
  let limit := max 1 (min limit 50)
  (sortNotesDesc (s.notes.filter (fun n => n.user_id == user_id))).take limit.toNat

/--
Embeds `search_notes(user_id, needle, limit=10)`: trims the needle and returns `[]`
when it is empty, before touching the store; otherwise the same clamped-limit
query with a case-insensitive `LIKE` substring filter.
-/
def search_notes (s : Db) (user_id : Int) (needle : String) (limit : Int) : List Note :=
  let needle := pyStrip needle
  if needle = "" then []
  else
    let limit := if limit == 0 then (10 : Int) else limit
    let limit := max 1 (min limit 50)
    (sortNotesDesc (s.notes.filter
      (fun n => n.user_id == user_id && likeNoCase n.text needle))).take limit.toNat

/-- Embeds `list_models()`: `SELECT id,key,label,active FROM models ORDER BY id`. -/
def list_models (s : Db) : List Model := sortModelsAsc s.models

/--
Embeds `get_active_model()`: `SELECT ... FROM models WHERE active=1` — if a row is
found, return it.  Otherwise take the lowest-id row (`ORDER BY id LIMIT 1`);
if the registry is empty raise `RuntimeError`; else
`UPDATE models SET active=CASE WHEN id=? THEN 1 ELSE 0 END` and return it.
-/
def get_active_model (s : Db) : Except DbError Model × Db :=
  match s.models.find? (fun m => m.active) with
  | some r => (Except.ok { r with active := true }, s)
  | none =>
    match minIdBy Model.id s.models with
    | none => (Except.error DbError.EmptyRegistry, s)
    | some r =>
      (Except.ok { r with active := true },
       { s with models := s.models.map (fun m => { m with active := m.id == r.id }) })

/--
Embeds `set_active_model(model_id)`: inside `BEGIN IMMEDIATE`, check
`SELECT 1 FROM models WHERE id=?` — if absent, roll back and raise
`ValueError`.  Otherwise `UPDATE models SET active=0 WHERE active=1`,
then `UPDATE models SET active=1 WHERE id=?`, commit, and return
`get_active_model()` on the committed state.
-/
def set_active_model (s : Db) (model_id : Int) : Except DbError Model × Db :=
  if s.models.any (fun m => m.id == model_id) then
    let cleared := s.models.map (fun m => if m.active then { m with active := false } else m)
    let switched := cleared.map (fun m => if m.id == model_id then { m with active := true } else m)
    get_active_model { s with models := switched }
  else
    (Except.error DbError.UnknownId, s)

/-- Sequential execution of `set_active_model` calls, keeping only the store. -/
def run_set_active : Db → List Int → Db
  | s, [] => s
  | s, i :: rest => run_set_active (set_active_model s i).2 rest

/-- Embeds `get_character_by_id(character_id)`:
`SELECT id,name,prompt FROM characters WHERE id=?`. -/
def get_character_by_id (s : Db) (character_id : Int) : Option Character :=
  s.characters.find? (fun c => c.id == character_id)

/--
Embeds `set_user_character(user_id, character_id)`: raises `ValueError` when the
character id is not in the catalog (before any write); otherwise
`INSERT INTO user_character ... ON CONFLICT(telegram_user_id) DO UPDATE SET
character_id=excluded.character_id` and returns the character.
-/
def set_user_character (s : Db) (user_id character_id : Int) :
    Except DbError Character × Db :=
  match get_character_by_id s character_id with
  | none => (Except.error DbError.UnknownCharacterId, s)
  | some c =>
    let upserted :=
      if s.user_character.any (fun a => a.telegram_user_id == user_id) then
        s.user_character.map (fun a =>
          if a.telegram_user_id == user_id then { a with character_id := character_id } else a)
      else
        s.user_character ++ [{ telegram_user_id := user_id, character_id := character_id }]
    (Except.ok c, { s with user_character := upserted })

/--
Embeds `get_user_character(user_id)`: `SELECT p.* FROM user_character up JOIN
characters p ON p.id = up.character_id WHERE up.telegram_user_id = ?`; if no
row, `SELECT ... FROM characters WHERE id=1`; if no row,
`SELECT ... FROM characters ORDER BY id LIMIT 1`; if still no row, raise
`RuntimeError`.  Read-only: no mutation.
-/
def get_user_character (s : Db) (user_id : Int) : Except DbError Character :=
  match (s.user_character.find? (fun a => a.telegram_user_id == user_id)).bind
      (fun a => s.characters.find? (fun c => c.id == a.character_id)) with
  | some c => Except.ok c
  | none =>
    match s.characters.find? (fun c => c.id == 1) with
    | some c => Except.ok c
    | none =>
      match minIdBy Character.id s.characters with
      | some c => Except.ok c
      | none => Except.error DbError.EmptyCatalog

/-- The `WHERE` predicate of `list_due_users`: `subscribed = 1 AND sign IS
NOT NULL AND notify_hour = ? AND (last_sent_date IS NULL OR
last_sent_date <> ?)`. -/
def duePred (today_str : String) (hour : Int) (u : UserRow) : Bool :=
  u.subscribed && u.sign.isSome && u.notify_hour == hour &&
    (u.last_sent_date == none || u.last_sent_date != some today_str)

/--
Embeds `list_due_users(today_str, hour)`: `SELECT user_id, sign FROM users WHERE ...`
— a pure query; the store component of the result is returned unchanged,
mirroring that the source runs only a `SELECT`.
-/
def list_due_users (s : Db) (today_str : String) (hour : Int) :
    List (Int × Option String) × Db :=
  ((s.users.filter (duePred today_str hour)).map (fun u => (u.user_id, u.sign)), s)

/-- Embeds `mark_sent_today(user_id, today_str)`:
`UPDATE users SET last_sent_date = ? WHERE user_id = ?`. -/
def mark_sent_today (s : Db) (user_id : Int) (today_str : String) : Db :=
  { s with
      users := s.users.map (fun u =>
        if u.user_id == user_id then { u with last_sent_date := some today_str } else u) }

/-- Outcome of the underlying database write attempted by the audit-log
functions: the environment either lets the `INSERT` commit or makes some step
(`_connect`, `execute`, `commit`) raise an exception with a message. -/
inductive StoreOutcome where
  | success
  | failure (msg : String)
deriving DecidableEq

/-- Body of the try block of `write_service_call`: append the row, or fail
with whatever exception the environment produced. -/
def insert_service_call (s : Db) (e : ServiceCallEntry) (env : StoreOutcome) :
    Except String Db :=
  match env with
  | StoreOutcome.success => Except.ok { s with service_call_log := s.service_call_log ++ [e] }
  | StoreOutcome.failure msg => Except.error msg

/-- Body of the try block of `write_error_log`. -/
def insert_error_log (s : Db) (e : ErrorEntry) (env : StoreOutcome) :
    Except String Db :=
  match env with
  | StoreOutcome.success => Except.ok { s with error_log := s.error_log ++ [e] }
  | StoreOutcome.failure msg => Except.error msg

/--
Embeds `write_service_call(...)`: runs the insert inside `try ... except Exception`;
on failure the exception is logged locally and swallowed, and the function
returns normally with the store unchanged.  The `Except` in the result type
is the caller-visible channel: an `Except.error` here would be a propagated
exception.
-/
def write_service_call (s : Db) (e : ServiceCallEntry) (env : StoreOutcome) :
    Except String Db :=
  match insert_service_call s e env with
  | Except.ok s1 => Except.ok s1
  | Except.error _ => Except.ok s

/-- Embeds `write_error_log(...)`: the same catch-all wrapper as `write_service_call`. -/
def write_error_log (s : Db) (e : ErrorEntry) (env : StoreOutcome) :
    Except String Db :=
  match insert_error_log s e env with
  | Except.ok s1 => Except.ok s1
  | Except.error _ => Except.ok s

/-! Concrete store states used to instantiate the theorems below. -/

/-- An entirely empty store. -/
def DbEmpty : Db :=
  { notes := [], next_note_id := 1, users := [], models := [], characters := [],
    user_character := [], service_call_log := [], error_log := [] }

/-- Store with users A (subscribed, sign set, hour 9, never sent),
B (subscribed, sign set, hour 9, last sent today) and C (unsubscribed,
hour 9), with today being `2025-01-01`. -/
def DbABC : Db :=
  { DbEmpty with
      users := [
        { user_id := 1, sign := some "Aries", notify_hour := 9, subscribed := true,
          last_sent_date := none },
        { user_id := 2, sign := some "Leo", notify_hour := 9, subscribed := true,
          last_sent_date := some "2025-01-01" },
        { user_id := 3, sign := some "Gemini", notify_hour := 9, subscribed := false,
          last_sent_date := none }] }

/-- Store holding two notes for user 1. -/
def DbTwoNotes : Db :=
  { DbEmpty with
      notes := [{ id := 1, user_id := 1, text := "alpha" },
                { id := 2, user_id := 1, text := "beta" }],
      next_note_id := 3 }

/-- A two-row models registry whose second row is active. -/
def DbModels : Db :=
  { DbEmpty with
      models := [{ id := 1, key := "k1", label := "L1", active := false },
                 { id := 2, key := "k2", label := "L2", active := true }] }

/-- A registry in the defensively-handled zero-active state, with the
lowest id not listed first. -/
def DbNoActive : Db :=
  { DbEmpty with
      models := [{ id := 2, key := "k2", label := "L2", active := false },
                 { id := 1, key := "k1", label := "L1", active := false }] }

/-- A two-entry character catalog without an id-1 entry, plus an assignment
for user 7 only. -/
def DbChars : Db :=
  { DbEmpty with
      characters := [{ id := 5, name := "Spock", prompt := "p5" },
                     { id := 3, name := "Yoda", prompt := "p3" }],
      user_character := [{ telegram_user_id := 7, character_id := 5 }] }

/-- A catalog that does contain the default id-1 entry. -/
def DbCharsDefault : Db :=
  { DbEmpty with
      characters := [{ id := 1, name := "Yoda", prompt := "p1" },
                     { id := 2, name := "Vader", prompt := "p2" }] }

/-- A note text of 501 characters: accepted by the Python-level emptiness
check but rejected by the schema `CHECK(length(text) BETWEEN 1 AND 500)`. -/
def longText : String := String.mk (List.replicate 501 'a')

end RudnBot

namespace RudnBot

/-! Helper lemmas. -/

/-- A non-empty string has positive length. -/
theorem one_le_length_of_ne_empty (t : String) (h : t ≠ "") : 1 ≤ t.length := by
  rcases t with ⟨data⟩
  cases data with
  | nil => exact absurd rfl h
  | cons c cs => simp [String.length]

end RudnBot

namespace RudnBot

/-- Propositional reading of the `WHERE` clause of `list_due_users`. -/
theorem duePred_iff (d : String) (hour : Int) (u : UserRow) :
    duePred d hour u = true ↔
      u.subscribed = true ∧ u.sign ≠ none ∧ u.notify_hour = hour ∧
        (u.last_sent_date = none ∨ u.last_sent_date ≠ some d) := by
  simp only [duePred, Bool.and_eq_true, Bool.or_eq_true, beq_iff_eq, bne_iff_ne,
    Option.isSome_iff_ne_none]
  tauto

/-- C2: `list_due_users(today, hour)` returns exactly the users with
`subscribed = 1`, a non-null sign, `notify_hour = hour` and a
`last_sent_date` that is null or differs from `today`; it is a pure query
(the store comes back unchanged); and on the concrete A/B/C store it
returns exactly A. -/
theorem C2_list_due_characterization (s : Db) (today : String) (hour : Int) :
    (∀ uid sg, (uid, sg) ∈ (list_due_users s today hour).1 ↔
      ∃ r ∈ s.users, r.user_id = uid ∧ r.sign = sg ∧ r.subscribed = true ∧ sg ≠ none ∧
        r.notify_hour = hour ∧
        (r.last_sent_date = none ∨ r.last_sent_date ≠ some today)) ∧
    (list_due_users s today hour).2 = s ∧
    (list_due_users DbABC "2025-01-01" 9).1 = [(1, some "Aries")] := by
  refine ⟨?_, rfl, by decide⟩
  intro uid sg
  simp only [list_due_users, List.mem_map, List.mem_filter]
  constructor
  · rintro ⟨r, ⟨hmem, hp⟩, heq⟩
    rw [duePred_iff] at hp
    obtain ⟨hsub, hsign, hhr, hlast⟩ := hp
    cases heq
    exact ⟨r, hmem, rfl, rfl, hsub, hsign, hhr, hlast⟩
  · rintro ⟨r, hmem, h1, h2, hsub, hne, hhr, hlast⟩
    refine ⟨r, ⟨hmem, ?_⟩, by rw [h1, h2]⟩
    rw [duePred_iff]
    exact ⟨hsub, by rw [h2]; exact hne, hhr, hlast⟩

/-- C3: `mark_sent_today` is idempotent — running it twice with the same user
and date yields the same store as running it once — and after
`mark_sent_today(u, d)` the user `u` is not returned by
`list_due_users(d, h)` for any hour `h`. -/
theorem C3_mark_sent_idempotent (s : Db) (u : Int) (d : String) :
    mark_sent_today (mark_sent_today s u d) u d = mark_sent_today s u d ∧
    ∀ hour sg, (u, sg) ∉ (list_due_users (mark_sent_today s u d) d hour).1 := by
  constructor
  · simp only [mark_sent_today, List.map_map]
    congr 1
    apply List.map_congr_left
    intro x _
    by_cases hx : x.user_id == u <;> simp [Function.comp, hx]
  · intro hour sg hmem
    simp only [list_due_users, mark_sent_today, List.mem_map, List.mem_filter] at hmem
    obtain ⟨r, ⟨hr, hp⟩, heq⟩ := hmem
    obtain ⟨r0, h0mem, hfr⟩ := hr
    by_cases h0 : r0.user_id = u
    · rw [if_pos (by simp [h0])] at hfr
      rw [duePred_iff] at hp
      rcases hp.2.2.2 with hc | hc <;> rw [← hfr] at hc <;> simp at hc
    · rw [if_neg (by simp [h0])] at hfr
      rw [← hfr] at heq
      exact h0 (Prod.mk.injEq .. ▸ heq).1

/-- C6 counterexample: on a store holding two notes for user 1,
`list_notes(1, limit=0)` does not behave as `limit=1` — it returns both
rows (the zero limit falls back to the default 10), while `limit=1`
returns one row. -/
theorem C6_counterexample :
    ¬ (list_notes DbTwoNotes 1 0 = list_notes DbTwoNotes 1 1) := by decide

/-- C6 (amended): `list_notes` returns at most 50 rows for every limit
argument (the limit is clamped, not rejected), and `limit=0` behaves as the
default `limit=10` (Python `limit or 10`), not as `limit=1`. -/
theorem C6_limit_clamping (s : Db) (u : Int) (limit : Int) :
    (list_notes s u limit).length ≤ 50 ∧ list_notes s u 0 = list_notes s u 10 := by
  constructor
  · unfold list_notes
    have h1 : (max 1 (min (if limit == 0 then (10 : Int) else limit) 50)).toNat ≤ 50 := by
      rw [Int.toNat_le]
      exact le_trans (max_le (by norm_num) (min_le_right _ _)) (by norm_num)
    rw [List.length_take]
    exact le_trans (min_le_left _ _) h1
  · rfl

/-- C9: `write_service_call` and `write_error_log` never propagate a failure
to the caller: whatever the outcome of the underlying insert, they return
normally, and when the insert fails the store is left unchanged and the
error is discarded. -/
theorem C9_audit_never_fails (s : Db) (e1 : ServiceCallEntry) (e2 : ErrorEntry)
    (env1 env2 : StoreOutcome) (m1 m2 : String) :
    (∃ s1, write_service_call s e1 env1 = Except.ok s1) ∧
    write_service_call s e1 (StoreOutcome.failure m1) = Except.ok s ∧
    (∃ s2, write_error_log s e2 env2 = Except.ok s2) ∧
    write_error_log s e2 (StoreOutcome.failure m2) = Except.ok s := by
  refine ⟨?_, rfl, ?_, rfl⟩
  · cases env1 <;> exact ⟨_, rfl⟩
  · cases env2 <;> exact ⟨_, rfl⟩

/-- C10: a search whose needle is empty or whitespace-only returns the empty
list without error, and its result does not depend on the store at all. -/
theorem C10_search_empty_needle (s t : Db) (u : Int) (needle : String) (limit : Int)
    (hw : pyStrip needle = "") :
    search_notes s u needle limit = [] ∧
    search_notes s u needle limit = search_notes t u needle limit := by
  simp [search_notes, hw]

/-- C10 witness: instantiation at a whitespace needle and a concrete store. -/
theorem C10_witness :
    (pyStrip "  " = "") ∧
      (search_notes DbTwoNotes 1 "  " 7 = [] ∧
        search_notes DbTwoNotes 1 "  " 7 = search_notes DbABC 1 "  " 7) :=
  ⟨by decide, C10_search_empty_needle DbTwoNotes DbABC 1 "  " 7 (by decide)⟩

end RudnBot

namespace RudnBot

set_option maxRecDepth 40000 in
/-- C5 counterexample: with a 501-character text (non-empty after trimming),
two `add_note` calls store nothing at all — the schema
`CHECK(length(text) BETWEEN 1 AND 500)` rejects the insert — so the claim
"calling add twice with the same pair results in exactly one stored note
row" fails for this text. -/
theorem C5_counterexample :
    ¬ ((add_note (add_note DbEmpty 1 longText).2 1 longText).2.notes.countP
        (fun n => n.user_id == 1 && n.text == pyStrip longText) = 1) := by decide

/-- C5 (amended): for every text whose trimmed form is non-empty and at most
500 characters, starting from a store holding at most one row with the
trimmed `(user_id, text)` pair (the `UNIQUE` schema invariant), calling
`add_note` twice with the same pair leaves exactly one stored row with that
pair and the second call returns no identifier; an add whose text is empty
after trimming inserts nothing and returns no identifier. -/
theorem C5_add_note_dedup (s : Db) (u : Int) (t : String)
    (hinv : s.notes.countP (fun n => n.user_id == u && n.text == pyStrip t) ≤ 1) :
    (pyStrip t ≠ "" → (pyStrip t).length ≤ 500 →
      ((add_note (add_note s u t).2 u t).2.notes.countP
          (fun n => n.user_id == u && n.text == pyStrip t) = 1 ∧
        (add_note (add_note s u t).2 u t).1 = none)) ∧
    (pyStrip t = "" → add_note s u t = (none, s)) := by
  constructor
  · intro hne hlen
    by_cases hdup : s.notes.any (fun n => n.user_id == u && n.text == pyStrip t) = true
    · have h1 : add_note s u t = (none, s) := by
        simp [add_note, hne, hdup]
      have hpos : 0 < s.notes.countP (fun n => n.user_id == u && n.text == pyStrip t) :=
        List.countP_pos_iff.mpr (List.any_eq_true.mp hdup)
      have h2 : add_note (add_note s u t).2 u t = (none, s) := by
        rw [h1]
        exact h1
      rw [h2]
      exact ⟨le_antisymm hinv hpos, rfl⟩
    · have hge := one_le_length_of_ne_empty _ hne
      have h1 : add_note s u t =
          (some s.next_note_id,
           { s with
              notes := s.notes ++ [{ id := s.next_note_id, user_id := u, text := pyStrip t }],
              next_note_id := s.next_note_id + 1 }) := by
        simp only [add_note, hne, hdup]
        simp
        omega
      have hpnew : (fun n : Note => n.user_id == u && n.text == pyStrip t)
          { id := s.next_note_id, user_id := u, text := pyStrip t } = true := by simp
      have hany2 : (s.notes ++
            [({ id := s.next_note_id, user_id := u, text := pyStrip t } : Note)]).any
            (fun n : Note => n.user_id == u && n.text == pyStrip t) = true := by
        rw [List.any_append]
        simp [hpnew]
      have h2 : add_note (add_note s u t).2 u t = (none, (add_note s u t).2) := by
        rw [h1]
        simp [add_note, hne, hany2]
      rw [h2]
      have h0 : s.notes.countP (fun n => n.user_id == u && n.text == pyStrip t) = 0 :=
        List.countP_eq_zero.mpr (by
          intro a ha hpa
          exact hdup (List.any_eq_true.mpr ⟨a, ha, hpa⟩))
      constructor
      · rw [h1]
        show (s.notes ++ [({ id := s.next_note_id, user_id := u, text := pyStrip t } : Note)]).countP
          (fun n : Note => n.user_id == u && n.text == pyStrip t) = 1
        rw [List.countP_append]
        simp [h0, List.countP_cons, hpnew]
      · rfl
  · intro h0
    simp [add_note, h0]

/-- C5 witness: the spec scenario, `add(user=1, text="buy milk")` twice on an
empty store. -/
theorem C5_witness :
    (DbEmpty.notes.countP (fun n => n.user_id == 1 && n.text == pyStrip "buy milk") ≤ 1) ∧
    (pyStrip "buy milk" ≠ "") ∧ ((pyStrip "buy milk").length ≤ 500) ∧
    ((add_note (add_note DbEmpty 1 "buy milk").2 1 "buy milk").2.notes.countP
        (fun n => n.user_id == 1 && n.text == pyStrip "buy milk") = 1 ∧
      (add_note (add_note DbEmpty 1 "buy milk").2 1 "buy milk").1 = none) :=
  ⟨by decide, by decide, by decide,
   (C5_add_note_dedup DbEmpty 1 "buy milk" (by decide)).1 (by decide) (by decide)⟩

end RudnBot

namespace RudnBot

/-! Helper lemmas about `minIdBy`, `find?` and the models registry. -/

/-- Helper: `minIdBy` returns `none` only on the empty table. -/
theorem minIdBy_eq_none {A : Type} (key : A → Int) :
    ∀ l : List A, minIdBy key l = none → l = [] := by
  intro l
  cases l with
  | nil => intro _; rfl
  | cons x xs =>
    intro h
    simp only [minIdBy] at h
    split at h
    · exact Option.noConfusion h
    · rename_i y hm
      by_cases hk : key y < key x
      · rw [if_pos hk] at h; exact Option.noConfusion h
      · rw [if_neg hk] at h; exact Option.noConfusion h

/-- The row returned by `minIdBy` belongs to the table. -/
theorem minIdBy_mem {A : Type} (key : A → Int) (r : A) :
    ∀ l : List A, minIdBy key l = some r → r ∈ l := by
  intro l
  induction l with
  | nil => intro h; simp [minIdBy] at h
  | cons x xs ih =>
    intro h
    simp only [minIdBy] at h
    split at h
    · obtain rfl := Option.some.inj h
      exact List.mem_cons_self _ _
    · rename_i y hm
      by_cases hk : key y < key x
      · rw [if_pos hk] at h
        obtain rfl := Option.some.inj h
        exact List.mem_cons_of_mem _ (ih hm)
      · rw [if_neg hk] at h
        obtain rfl := Option.some.inj h
        exact List.mem_cons_self _ _

/-- The row returned by `minIdBy` has the minimal key. -/
theorem minIdBy_le {A : Type} (key : A → Int) :
    ∀ (l : List A) (r : A), minIdBy key l = some r → ∀ x ∈ l, key r ≤ key x := by
  intro l
  induction l with
  | nil => intro r h; simp [minIdBy] at h
  | cons x xs ih =>
    intro r h z hz
    simp only [minIdBy] at h
    split at h
    · rename_i hm
      obtain rfl := Option.some.inj h
      obtain rfl := minIdBy_eq_none key xs hm
      rcases List.mem_cons.mp hz with h1 | h1
      · rw [h1]
      · cases h1
    · rename_i y hm
      by_cases hk : key y < key x
      · rw [if_pos hk] at h
        obtain rfl := Option.some.inj h
        rcases List.mem_cons.mp hz with h1 | h1
        · rw [h1]; exact le_of_lt hk
        · exact ih _ hm z h1
      · rw [if_neg hk] at h
        obtain rfl := Option.some.inj h
        rcases List.mem_cons.mp hz with h1 | h1
        · rw [h1]
        · exact le_trans (not_lt.mp hk) (ih _ hm z h1)

/-- A non-empty table always has a `minIdBy` row. -/
theorem minIdBy_of_ne_nil {A : Type} (key : A → Int) (l : List A) (h : l ≠ []) :
    ∃ r, minIdBy key l = some r := by
  cases l with
  | nil => exact absurd rfl h
  | cons x xs =>
    simp only [minIdBy]
    split
    · exact ⟨x, rfl⟩
    · rename_i y hm
      by_cases hk : key y < key x
      · exact ⟨y, if_pos hk⟩
      · exact ⟨x, if_neg hk⟩

/-- Setting `active := true` on an already-active row changes nothing. -/
theorem update_active_true_eq (m : Model) (h : m.active = true) :
    { m with active := true } = m := by
  cases m
  simp_all

/-- Setting `active := false` on an inactive row changes nothing. -/
theorem update_active_false_eq (m : Model) (h : m.active = false) :
    { m with active := false } = m := by
  cases m
  simp_all

/-- If no row is active, the `WHERE active=1` lookup finds nothing. -/
theorem find?_active_eq_none (l : List Model) (h : ∀ r ∈ l, r.active = false) :
    l.find? (fun m => m.active) = none :=
  List.find?_eq_none.mpr (by intro x hx; simp [h x hx])

/-- If exactly one row is active, the `WHERE active=1` lookup finds it. -/
theorem find?_active_unique (r : Model) (ha : r.active = true) :
    ∀ l : List Model, r ∈ l → (∀ x ∈ l, x.active = true → x = r) →
      l.find? (fun m => m.active) = some r := by
  intro l
  induction l with
  | nil => intro hr _; cases hr
  | cons m t ih =>
    intro hr hu
    by_cases hm : m.active = true
    · rw [List.find?_cons_of_pos _ (by simp [hm])]
      rw [hu m (List.mem_cons_self _ _) hm]
    · rw [List.find?_cons_of_neg _ (by simp [hm])]
      apply ih
      · rcases List.mem_cons.mp hr with h | h
        · rw [← h] at hm; exact absurd ha hm
        · exact h
      · intro x hx hxa
        exact hu x (List.mem_cons_of_mem _ hx) hxa

/-- Net effect of the two `UPDATE` statements of `set_active_model` on the
rows: the target row becomes active, every other row inactive. -/
def setActiveMap (i : Int) (l : List Model) : List Model :=
  l.map (fun m => if m.id == i then { m with active := true } else { m with active := false })

/-- Element-wise effect of clear-then-set. -/
theorem clear_set_elem (i : Int) (m : Model) :
    (fun m : Model => if m.id == i then { m with active := true } else m)
      (if m.active then { m with active := false } else m) =
    (if m.id == i then { m with active := true } else { m with active := false }) := by
  rcases m with ⟨mid, mkey, mlabel, mact⟩
  by_cases h2 : mid = i <;> cases mact <;> simp [h2]

/-- Running `UPDATE models SET active=0 WHERE active=1` followed by
`UPDATE models SET active=1 WHERE id=?` equals `setActiveMap`. -/
theorem clear_then_set (l : List Model) (i : Int) :
    (l.map (fun m => if m.active then { m with active := false } else m)).map
      (fun m => if m.id == i then { m with active := true } else m) = setActiveMap i l := by
  rw [List.map_map]
  apply List.map_congr_left
  intro m _
  exact clear_set_elem i m

/-- Helper: `setActiveMap` preserves the ids of the registry. -/
theorem setActiveMap_ids (i : Int) (l : List Model) :
    (setActiveMap i l).map Model.id = l.map Model.id := by
  unfold setActiveMap
  rw [List.map_map]
  apply List.map_congr_left
  intro m _
  by_cases h : m.id = i <;> simp [Function.comp, h]

/-- After `setActiveMap`, the active rows are exactly the rows whose id is
the target id. -/
theorem setActiveMap_countP (i : Int) (l : List Model) :
    (setActiveMap i l).countP (fun m => m.active) = l.countP (fun m => m.id == i) := by
  unfold setActiveMap
  rw [List.countP_map]
  induction l with
  | nil => rfl
  | cons m t ih =>
    rw [List.countP_cons, List.countP_cons, ih]
    by_cases h : m.id = i <;> simp [Function.comp, h]

/-- With distinct primary keys, exactly one row matches an id present in the
registry. -/
theorem countP_id_eq_one (i : Int) :
    ∀ l : List Model, (l.map Model.id).Nodup → i ∈ l.map Model.id →
      l.countP (fun m => m.id == i) = 1 := by
  intro l
  induction l with
  | nil => intro _ hi; simp at hi
  | cons m t ih =>
    intro hnd hi
    rw [List.map_cons, List.nodup_cons] at hnd
    rw [List.map_cons, List.mem_cons] at hi
    rw [List.countP_cons]
    rcases hi with h | h
    · have h0 : t.countP (fun m => m.id == i) = 0 :=
        List.countP_eq_zero.mpr (by
          intro a ha hpa
          rw [beq_iff_eq] at hpa
          exact hnd.1 (List.mem_map.mpr ⟨a, ha, by rw [hpa, h]⟩))
      simp [h0, ← h]
    · have hm : ¬ (m.id = i) := by
        intro he
        exact hnd.1 (he ▸ h)
      rw [ih hnd.2 h]
      simp [hm]

end RudnBot

namespace RudnBot

/-- C4: `get_active_model` returns the active row when exactly one row is
active (store untouched); on a non-empty registry with no active row it
deterministically activates the lowest-id row and returns it, keeping the
set of ids; and it fails with the empty-registry error exactly when the
registry has zero rows. -/
theorem C4_get_active_model_spec (s : Db) :
    (s.models = [] → get_active_model s = (Except.error DbError.EmptyRegistry, s)) ∧
    (∀ r ∈ s.models, r.active = true → (∀ x ∈ s.models, x.active = true → x = r) →
      get_active_model s = (Except.ok r, s)) ∧
    (s.models ≠ [] → (∀ r ∈ s.models, r.active = false) →
      ∃ r ∈ s.models, (∀ x ∈ s.models, r.id ≤ x.id) ∧
        ∃ s1, get_active_model s = (Except.ok { r with active := true }, s1) ∧
          (∀ q ∈ s1.models, q.active = true ↔ q.id = r.id) ∧
          s1.models.map Model.id = s.models.map Model.id) ∧
    ((get_active_model s).1 = Except.error DbError.EmptyRegistry ↔ s.models = []) := by
  refine ⟨?_, ?_, ?_, ?_, ?_⟩
  · intro h
    simp [get_active_model, h, minIdBy]
  · intro r hr ha hu
    have hf := find?_active_unique r ha s.models hr hu
    simp [get_active_model, hf, update_active_true_eq r ha]
  · intro hne hno
    have hf : s.models.find? (fun m => m.active) = none := find?_active_eq_none _ hno
    obtain ⟨r, hmin⟩ := minIdBy_of_ne_nil Model.id s.models hne
    refine ⟨r, minIdBy_mem _ _ _ hmin, minIdBy_le _ _ _ hmin, ?_⟩
    refine ⟨{ s with models := s.models.map (fun q => { q with active := q.id == r.id }) },
      ?_, ?_, ?_⟩
    · simp [get_active_model, hf, hmin]
    · intro q hq
      rcases List.mem_map.mp hq with ⟨q0, hq0, rfl⟩
      by_cases h : q0.id = r.id <;> simp [h]
    · show (s.models.map (fun q => { q with active := q.id == r.id })).map Model.id
        = s.models.map Model.id
      rw [List.map_map]
      apply List.map_congr_left
      intro q _
      rfl
  · intro h
    by_contra hne
    cases hfind : s.models.find? (fun m => m.active) with
    | some r => simp [get_active_model, hfind] at h
    | none =>
      obtain ⟨r, hmin⟩ := minIdBy_of_ne_nil Model.id s.models hne
      simp [get_active_model, hfind, hmin] at h
  · intro h
    simp [get_active_model, h, minIdBy]

/-- C4 witness: the three behaviors at concrete registries — empty registry,
a registry whose row 2 is active, and a zero-active registry whose lowest id
is 1. -/
theorem C4_witness :
    (get_active_model DbEmpty = (Except.error DbError.EmptyRegistry, DbEmpty)) ∧
    (get_active_model DbModels =
      (Except.ok { id := 2, key := "k2", label := "L2", active := true }, DbModels)) ∧
    (∃ r ∈ DbNoActive.models, (∀ x ∈ DbNoActive.models, r.id ≤ x.id) ∧
      ∃ s1, get_active_model DbNoActive = (Except.ok { r with active := true }, s1) ∧
        (∀ q ∈ s1.models, q.active = true ↔ q.id = r.id) ∧
        s1.models.map Model.id = DbNoActive.models.map Model.id) :=
  ⟨(C4_get_active_model_spec DbEmpty).1 rfl,
   (C4_get_active_model_spec DbModels).2.1 _ (by decide) rfl (by decide),
   (C4_get_active_model_spec DbNoActive).2.2.1 (by decide) (by decide)⟩

end RudnBot

namespace RudnBot

/-- Inserting into the ascending sort adds one row to every count. -/
theorem insertModelAsc_countP (p : Model → Bool) (m : Model) :
    ∀ l : List Model, (insertModelAsc m l).countP p = (m :: l).countP p := by
  intro l
  induction l with
  | nil => rfl
  | cons x xs ih =>
    simp only [insertModelAsc]
    by_cases h : m.id ≤ x.id
    · rw [if_pos h]
    · rw [if_neg h]
      rw [List.countP_cons, ih, List.countP_cons, List.countP_cons, List.countP_cons]
      omega

/-- Sorting `ORDER BY id` does not change how many rows satisfy a predicate. -/
theorem sortModelsAsc_countP (p : Model → Bool) :
    ∀ l : List Model, (sortModelsAsc l).countP p = l.countP p := by
  intro l
  induction l with
  | nil => rfl
  | cons x xs ih =>
    show (insertModelAsc x (sortModelsAsc xs)).countP p = _
    rw [insertModelAsc_countP, List.countP_cons, List.countP_cons, ih]

/-- After `setActiveMap i`, the `WHERE active=1` lookup finds the target row
(in its updated form) whenever the target id is present. -/
theorem find?_setActiveMap (i : Int) :
    ∀ l : List Model, i ∈ l.map Model.id →
      ∃ m0 ∈ l, m0.id = i ∧
        (setActiveMap i l).find? (fun m => m.active) = some { m0 with active := true } := by
  intro l
  induction l with
  | nil => intro hi; simp at hi
  | cons m t ih =>
    intro hi
    rw [List.map_cons, List.mem_cons] at hi
    by_cases h : m.id = i
    · refine ⟨m, List.mem_cons_self _ _, h, ?_⟩
      show ((if (m.id == i) = true then { m with active := true } else { m with active := false })
            :: setActiveMap i t).find? (fun m => m.active) = some { m with active := true }
      rw [if_pos (by simp [h])]
      rw [List.find?_cons_of_pos _ (by simp)]
    · have hi2 : i ∈ t.map Model.id := by
        rcases hi with h1 | h1
        · exact absurd h1.symm h
        · exact h1
      obtain ⟨m0, hm0, hid, hfind⟩ := ih hi2
      refine ⟨m0, List.mem_cons_of_mem _ hm0, hid, ?_⟩
      show ((if (m.id == i) = true then { m with active := true } else { m with active := false })
            :: setActiveMap i t).find? (fun m => m.active) = some { m0 with active := true }
      rw [if_neg (by simp [h])]
      rw [List.find?_cons_of_neg _ (by simp)]
      exact hfind

/-- Calling `set_active_model` on a present id: full characterization of the result
and of the committed registry. -/
theorem set_active_model_ok (s : Db) (i : Int)
    (hnd : (s.models.map Model.id).Nodup) (hi : i ∈ s.models.map Model.id) :
    ∃ m, set_active_model s i = (Except.ok m, { s with models := setActiveMap i s.models }) ∧
      m.id = i ∧ m.active = true ∧ m ∈ setActiveMap i s.models := by
  have hany : s.models.any (fun m => m.id == i) = true := by
    rcases List.mem_map.mp hi with ⟨a, ha, rfl⟩
    exact List.any_eq_true.mpr ⟨a, ha, by simp⟩
  obtain ⟨m0, hm0, hid, hfind⟩ := find?_setActiveMap i s.models hi
  have hstep : set_active_model s i = get_active_model { s with models := setActiveMap i s.models } := by
    simp only [set_active_model]
    rw [if_pos hany, clear_then_set]
  have hget : get_active_model { s with models := setActiveMap i s.models } =
      (Except.ok { m0 with active := true }, { s with models := setActiveMap i s.models }) := by
    simp only [get_active_model]
    rw [hfind]
  refine ⟨{ m0 with active := true }, ?_, by simp [hid], rfl, ?_⟩
  · rw [hstep, hget]
  · exact List.mem_of_find?_eq_some hfind

/-- Running a sequence of valid `set_active_model` calls never changes the
set of registry ids. -/
theorem run_set_active_models (pre : List Int) :
    ∀ s : Db, (s.models.map Model.id).Nodup → (∀ j ∈ pre, j ∈ s.models.map Model.id) →
      (run_set_active s pre).models.map Model.id = s.models.map Model.id := by
  induction pre with
  | nil => intro s _ _; rfl
  | cons j rest ih =>
    intro s hnd hall
    have hj := hall j (List.mem_cons_self _ _)
    obtain ⟨m, hstep, _, _, _⟩ := set_active_model_ok s j hnd hj
    show (run_set_active (set_active_model s j).2 rest).models.map Model.id = _
    rw [hstep]
    have hids : (setActiveMap j s.models).map Model.id = s.models.map Model.id :=
      setActiveMap_ids j s.models
    rw [ih { s with models := setActiveMap j s.models }
      (by show (setActiveMap j s.models).map Model.id |>.Nodup; rw [hids]; exact hnd)
      (by intro x hx
          show x ∈ (setActiveMap j s.models).map Model.id
          rw [hids]
          exact hall x (List.mem_cons_of_mem _ hx))]
    exact hids

/-- C1: starting from any registry whose ids are distinct (the primary-key
invariant), for every sequence of `set_active_model` calls whose ids all
exist in the registry, after each call exactly one row is active, that row
is the requested one, the call returns that row, and `list_models` likewise
shows exactly one active row. -/
theorem C1_single_active_invariant (s : Db) (ids : List Int)
    (hnd : (s.models.map Model.id).Nodup)
    (hall : ∀ j ∈ ids, j ∈ s.models.map Model.id) :
    ∀ pre i post, ids = pre ++ i :: post →
      ∃ m s1, set_active_model (run_set_active s pre) i = (Except.ok m, s1) ∧
        m.id = i ∧ m.active = true ∧ m ∈ s1.models ∧
        s1.models.countP (fun r => r.active) = 1 ∧
        (∀ r ∈ s1.models, r.active = true → r.id = i) ∧
        (list_models s1).countP (fun r => r.active) = 1 := by
  intro pre i post hsplit
  subst hsplit
  have hpre : ∀ j ∈ pre, j ∈ s.models.map Model.id := fun j hj =>
    hall j (List.mem_append.mpr (Or.inl hj))
  have hi : i ∈ s.models.map Model.id :=
    hall i (List.mem_append.mpr (Or.inr (List.mem_cons_self _ _)))
  have hids0 : (run_set_active s pre).models.map Model.id = s.models.map Model.id :=
    run_set_active_models pre s hnd hpre
  have hnd0 : ((run_set_active s pre).models.map Model.id).Nodup := by
    rw [hids0]; exact hnd
  have hi0 : i ∈ (run_set_active s pre).models.map Model.id := by
    rw [hids0]; exact hi
  obtain ⟨m, hstep, hmid, hmact, hmmem⟩ := set_active_model_ok (run_set_active s pre) i hnd0 hi0
  refine ⟨m, { run_set_active s pre with models := setActiveMap i (run_set_active s pre).models },
    hstep, hmid, hmact, hmmem, ?_, ?_, ?_⟩
  · show (setActiveMap i (run_set_active s pre).models).countP (fun r => r.active) = 1
    rw [setActiveMap_countP]
    exact countP_id_eq_one i (run_set_active s pre).models hnd0 hi0
  · intro r hr hra
    rcases List.mem_map.mp hr with ⟨q, hq, rfl⟩
    by_cases h : q.id = i
    · rw [if_pos (by simp [h])]
      exact h
    · rw [if_neg (by simp [h])] at hra
      simp at hra
  · show (sortModelsAsc (setActiveMap i (run_set_active s pre).models)).countP
      (fun r => r.active) = 1
    rw [sortModelsAsc_countP, setActiveMap_countP]
    exact countP_id_eq_one i (run_set_active s pre).models hnd0 hi0

/-- C1 witness: the two-model registry, switching to model 2 and then to
model 1. -/
theorem C1_witness :
    ∃ m s1, set_active_model (run_set_active DbModels [2]) 1 = (Except.ok m, s1) ∧
      m.id = 1 ∧ m.active = true ∧ m ∈ s1.models ∧
      s1.models.countP (fun r => r.active) = 1 ∧
      (∀ r ∈ s1.models, r.active = true → r.id = 1) ∧
      (list_models s1).countP (fun r => r.active) = 1 :=
  C1_single_active_invariant DbModels [2, 1] (by decide) (by decide) [2] 1 [] rfl

end RudnBot

namespace RudnBot

/-- With distinct keys, `find?` on a key equality returns the matching row. -/
theorem find?_key_unique {A : Type} (key : A → Int) (c : A) (j : Int) (hj : key c = j) :
    ∀ l : List A, (l.map key).Nodup → c ∈ l →
      l.find? (fun x => key x == j) = some c := by
  intro l
  induction l with
  | nil => intro _ hc; cases hc
  | cons m t ih =>
    intro hnd hc
    rw [List.map_cons, List.nodup_cons] at hnd
    by_cases hm : key m = j
    · rw [List.find?_cons_of_pos _ (by simp [hm])]
      rcases List.mem_cons.mp hc with h | h
      · rw [h]
      · exact absurd (List.mem_map.mpr ⟨c, h, hj.trans hm.symm⟩) hnd.1
    · rw [List.find?_cons_of_neg _ (by simp [hm])]
      apply ih hnd.2
      rcases List.mem_cons.mp hc with h | h
      · exact absurd (h ▸ hj) hm
      · exact h

/-- C7: for a user with no assignment row, `get_user_character` returns the
catalog entry with id 1 when it exists; otherwise, on a non-empty catalog,
the lowest-id entry; and it fails with the empty-catalog error exactly when
the catalog has zero rows. -/
theorem C7_get_user_character_fallback (s : Db) (uid : Int)
    (hno : ∀ a ∈ s.user_character, a.telegram_user_id ≠ uid)
    (hnd : (s.characters.map Character.id).Nodup) :
    (∀ c ∈ s.characters, c.id = 1 → get_user_character s uid = Except.ok c) ∧
    (s.characters ≠ [] → (∀ c ∈ s.characters, c.id ≠ 1) →
      ∃ c ∈ s.characters, (∀ x ∈ s.characters, c.id ≤ x.id) ∧
        get_user_character s uid = Except.ok c) ∧
    (get_user_character s uid = Except.error DbError.EmptyCatalog ↔ s.characters = []) := by
  have hfa : s.user_character.find? (fun a => a.telegram_user_id == uid) = none :=
    List.find?_eq_none.mpr (by intro a ha; simp [hno a ha])
  refine ⟨?_, ?_, ?_⟩
  · intro c hc h1
    have hf1 := find?_key_unique Character.id c 1 h1 s.characters hnd hc
    simp [get_user_character, hfa, hf1]
  · intro hne h1
    have hf1 : s.characters.find? (fun c => c.id == 1) = none :=
      List.find?_eq_none.mpr (by intro c hc; simp [h1 c hc])
    obtain ⟨c, hmin⟩ := minIdBy_of_ne_nil Character.id s.characters hne
    exact ⟨c, minIdBy_mem _ _ _ hmin, minIdBy_le _ _ _ hmin,
      by simp [get_user_character, hfa, hf1, hmin]⟩
  · constructor
    · intro h
      by_contra hne
      cases hf1 : s.characters.find? (fun c => c.id == 1) with
      | some c => simp [get_user_character, hfa, hf1] at h
      | none =>
        obtain ⟨c, hmin⟩ := minIdBy_of_ne_nil Character.id s.characters hne
        simp [get_user_character, hfa, hf1, hmin] at h
    · intro h
      simp [get_user_character, hfa, h, minIdBy]

/-- C7 witness: a catalog with a default id-1 entry, a catalog without one,
and the empty catalog, each for a user without an assignment row. -/
theorem C7_witness :
    (get_user_character DbCharsDefault 9 = Except.ok { id := 1, name := "Yoda", prompt := "p1" }) ∧
    (∃ c ∈ DbChars.characters, (∀ x ∈ DbChars.characters, c.id ≤ x.id) ∧
      get_user_character DbChars 9 = Except.ok c) ∧
    (get_user_character DbEmpty 9 = Except.error DbError.EmptyCatalog ↔ DbEmpty.characters = []) :=
  ⟨(C7_get_user_character_fallback DbCharsDefault 9 (by decide) (by decide)).1 _ (by decide) rfl,
   (C7_get_user_character_fallback DbChars 9 (by decide) (by decide)).2.1 (by decide) (by decide),
   (C7_get_user_character_fallback DbEmpty 9 (by decide) (by decide)).2.2⟩

/-- After the `ON CONFLICT DO UPDATE` branch, the assignment row of the user holds
the new character id. -/
theorem find?_upsert_map (uid cid : Int) :
    ∀ l : List UserCharacter, l.any (fun a => a.telegram_user_id == uid) = true →
      (l.map (fun a =>
        if a.telegram_user_id == uid then { a with character_id := cid } else a)).find?
        (fun a => a.telegram_user_id == uid) =
        some { telegram_user_id := uid, character_id := cid } := by
  intro l
  induction l with
  | nil => intro hany; simp at hany
  | cons a t ih =>
    intro hany
    by_cases h : a.telegram_user_id = uid
    · rw [List.map_cons, if_pos (by simp [h])]
      rw [List.find?_cons_of_pos _ (by simp [h])]
      rcases a with ⟨ta, ca⟩
      simp_all
    · have hany2 : t.any (fun a => a.telegram_user_id == uid) = true := by
        rcases List.any_eq_true.mp hany with ⟨x, hx, hpx⟩
        rcases List.mem_cons.mp hx with h1 | h1
        · rw [h1] at hpx; simp at hpx; exact absurd hpx h
        · exact List.any_eq_true.mpr ⟨x, h1, hpx⟩
      rw [List.map_cons, if_neg (by simp [h])]
      rw [List.find?_cons_of_neg _ (by simp [h])]
      exact ih hany2

/-- After the insert branch of the upsert, the appended assignment row is the
one found for the user. -/
theorem find?_append_single (uid cid : Int) :
    ∀ l : List UserCharacter, l.any (fun a => a.telegram_user_id == uid) = false →
      (l ++ [({ telegram_user_id := uid, character_id := cid } : UserCharacter)]).find?
        (fun a => a.telegram_user_id == uid) =
        some { telegram_user_id := uid, character_id := cid } := by
  intro l
  induction l with
  | nil => intro _; simp [List.find?]
  | cons a t ih =>
    intro hnone
    rw [List.any_cons] at hnone
    have ha : ¬ (a.telegram_user_id = uid) := by
      intro h
      simp [h] at hnone
    have ht : t.any (fun a => a.telegram_user_id == uid) = false := by
      rcases Bool.or_eq_false_iff.mp hnone with ⟨_, h2⟩
      exact h2
    rw [List.cons_append, List.find?_cons_of_neg _ (by simp [ha])]
    exact ih ht

/-- C8: `set_user_character` with an id absent from the catalog fails with
the unknown-character error and leaves the store (hence the prior
assignment of the user) unchanged; with a present id it upserts the assignment — the
user now maps to the new character id, the rows of every other user are
untouched, all other tables are untouched — and returns the resolved
character. -/
theorem C8_set_user_character_spec (s : Db) (uid cid : Int) :
    ((∀ c ∈ s.characters, c.id ≠ cid) →
      set_user_character s uid cid = (Except.error DbError.UnknownCharacterId, s)) ∧
    (∀ c ∈ s.characters, c.id = cid → (s.characters.map Character.id).Nodup →
      ∃ s1, set_user_character s uid cid = (Except.ok c, s1) ∧
        s1.user_character.find? (fun a => a.telegram_user_id == uid) =
          some { telegram_user_id := uid, character_id := cid } ∧
        (∀ a : UserCharacter, a.telegram_user_id ≠ uid →
          (a ∈ s1.user_character ↔ a ∈ s.user_character)) ∧
        s1.notes = s.notes ∧ s1.models = s.models ∧ s1.users = s.users ∧
        s1.characters = s.characters) := by
  constructor
  · intro hno
    have hf : get_character_by_id s cid = none := by
      unfold get_character_by_id
      exact List.find?_eq_none.mpr (by intro c hc; simp [hno c hc])
    simp [set_user_character, hf]
  · intro c hc hcid hnd
    have hf : get_character_by_id s cid = some c :=
      find?_key_unique Character.id c cid hcid s.characters hnd hc
    by_cases hany : s.user_character.any (fun a => a.telegram_user_id == uid) = true
    · refine ⟨{ s with user_character := s.user_character.map (fun a =>
          if a.telegram_user_id == uid then { a with character_id := cid } else a) },
        ?_, ?_, ?_, rfl, rfl, rfl, rfl⟩
      · simp [set_user_character, hf, hany]
      · exact find?_upsert_map uid cid s.user_character hany
      · intro a hne
        constructor
        · intro ha
          rcases List.mem_map.mp ha with ⟨b, hb, hba⟩
          by_cases hbu : b.telegram_user_id = uid
          · rw [if_pos (by simp [hbu])] at hba
            refine absurd ?_ hne
            rw [← hba]
            exact hbu
          · rw [if_neg (by simp [hbu])] at hba
            rw [← hba]
            exact hb
        · intro ha
          by_cases hau : a.telegram_user_id = uid
          · exact absurd hau hne
          · exact List.mem_map.mpr ⟨a, ha, by rw [if_neg (by simp [hau])]⟩
    · have hany2 : s.user_character.any (fun a => a.telegram_user_id == uid) = false :=
        Bool.eq_false_iff.mpr hany
      refine ⟨{ s with user_character := s.user_character ++
          [{ telegram_user_id := uid, character_id := cid }] }, ?_, ?_, ?_, rfl, rfl, rfl, rfl⟩
      · simp [set_user_character, hf, hany]
      · exact find?_append_single uid cid s.user_character hany2
      · intro a hne
        show a ∈ s.user_character ++ [({ telegram_user_id := uid, character_id := cid } : UserCharacter)]
          ↔ a ∈ s.user_character
        rw [List.mem_append, List.mem_singleton]
        constructor
        · rintro (h | h)
          · exact h
          · exact absurd (by rw [h]) hne
        · exact fun h => Or.inl h

/-- C8 witness: user 7 (who has a prior assignment to character 5) first
with the unknown id 999, then upserted to the present id 3. -/
theorem C8_witness :
    (set_user_character DbChars 7 999 = (Except.error DbError.UnknownCharacterId, DbChars)) ∧
    (∃ s1, set_user_character DbChars 7 3 =
        (Except.ok { id := 3, name := "Yoda", prompt := "p3" }, s1) ∧
      s1.user_character.find? (fun a => a.telegram_user_id == 7) =
        some { telegram_user_id := 7, character_id := 3 } ∧
      (∀ a : UserCharacter, a.telegram_user_id ≠ 7 →
        (a ∈ s1.user_character ↔ a ∈ DbChars.user_character)) ∧
      s1.notes = DbChars.notes ∧ s1.models = DbChars.models ∧ s1.users = DbChars.users ∧
      s1.characters = DbChars.characters) :=
  ⟨(C8_set_user_character_spec DbChars 7 999).1 (by decide),
   (C8_set_user_character_spec DbChars 7 3).2 _ (by decide) rfl (by decide)⟩

end RudnBot
